import Mathlib

/-!
Shallow embedding of the metadata-resolution core of `qa4smreader`
(`src/qa4smreader/ncplot.py` together with the constants it uses from
`src/qa4smreader/globals.py`).

The Python dataset object (an `xarray.Dataset`) is modelled by the list of
its data-variable names together with its global attribute mapping.
Python dictionaries are modelled as association lists looked up from the
front (keys are unique in all inputs of interest, so first-match lookup
agrees with dictionary lookup).
-/

namespace QA4SM

/-- First-match lookup in an association list; models Python dictionary
access `d[k]` returning `some` value or `none` (Python raises `KeyError`). -/
def alookup {β : Type} (k : String) : List (String × β) → Option β
  | [] => none
  | (a, v) :: rest => if a = k then some v else alookup k rest

/-- A decoded NetCDF dataset as consumed by `ncplot.py`: its data-variable
names (`ds.data_vars`) and its global attributes (`ds.attrs`). -/
structure Dataset where
  data_vars : List String
  attrs : List (String × String)

/-- Modelled from the spec: the static lookup tables
`globals._dataset_pretty_names` and `globals._dataset_version_pretty_names`
are referenced by `ncplot._get_meta` but their definitions are not among the
provided sources (`globals.py` does not contain them).  The spec describes
them as two process-wide read-only string-to-string maps (short dataset name
to pretty name, and version string to pretty version name), so they are
taken as parameters of the embedding. -/
structure StaticTables where
  dataset_pretty_names : List (String × String)
  dataset_version_pretty_names : List (String × String)

/-- A value stored in the metadata dictionary built by `_get_meta`:
either a Python string or a Python integer. -/
inductive AttrVal where
  | str : String → AttrVal
  | int : Int → AttrVal
deriving DecidableEq

/-! ### The variable-name regex

`_get_meta` matches the variable name against the Python regex
`(\D+)_between_(\d+)-(\S+)_(\d+)-(?P<dataset>\S+)` with `re.compile(...).match`,
i.e. anchored at the start of the string, trailing input permitted.
The matcher below implements exactly this pattern with Python backtracking
semantics: `\D+` and `\S+` are greedy (longest alternative tried first),
`\d+` followed by a non-digit literal is maximal-munch (a shorter digit run
would put a digit where the literal is required, so greediness is
deterministic here).  `\d` is modelled by `Char.isDigit` and `\s` by
`Char.isWhitespace` (the Unicode fringes of the Python classes are not
needed by any input considered here). -/

/-- Greedy `\S+` at the end of the pattern: the maximal nonempty run of
non-whitespace characters (trailing input after it is not consumed,
matching Python `match` semantics without an end anchor). -/
def matchG5 (s : List Char) : Option (List Char) :=
  let g5 := s.takeWhile (fun c => !c.isWhitespace)
  if g5.isEmpty then none else some g5

/-- After group 3: the pattern remainder `_(\d+)-(\S+)`; returns the values
of groups 4 and 5. -/
def matchTail45 : List Char → Option (List Char × List Char)
  | '_' :: rest =>
    let g4 := rest.takeWhile Char.isDigit
    let r2 := rest.dropWhile Char.isDigit
    if g4.isEmpty then none
    else
      match r2 with
      | '-' :: r3 => (matchG5 r3).map fun g5 => (g4, g5)
      | _ => none
  | _ => none

/-- Greedy `(\S+)` for group 3 followed by `matchTail45`: at each further
non-whitespace character the longer extension of group 3 is tried first,
and only on its failure does the group end here — Python longest-first
backtracking. `acc` holds the reversed group-3 characters read so far. -/
def matchG3 (acc : List Char) : List Char → Option (List Char × List Char × List Char)
  | [] => none
  | c :: rest =>
    if c.isWhitespace then none
    else
      match matchG3 (c :: acc) rest with
      | some r => some r
      | none => (matchTail45 rest).map fun p => ((c :: acc).reverse, p.1, p.2)

/-- The characters of the literal `_between_` in the pattern. -/
def betweenLit : List Char := ['_', 'b', 'e', 't', 'w', 'e', 'e', 'n', '_']

/-- After group 1 and the literal `_between_`: the remainder
`(\d+)-(\S+)_(\d+)-(\S+)`; returns groups 2 to 5. -/
def matchAfterBetween (s : List Char) : Option (List Char × List Char × List Char × List Char) :=
  let g2 := s.takeWhile Char.isDigit
  let r := s.dropWhile Char.isDigit
  if g2.isEmpty then none
  else
    match r with
    | '-' :: r2 => (matchG3 [] r2).map fun t => (g2, t.1, t.2.1, t.2.2)
    | _ => none

/-- After a candidate end of group 1: require the literal `_between_`
and then the rest of the pattern. -/
def matchAfterG1 (s : List Char) : Option (List Char × List Char × List Char × List Char) :=
  if betweenLit.isPrefixOf s then matchAfterBetween (s.drop 9) else none

/-- Greedy `(\D+)` for group 1, longest-first as for group 3. -/
def matchG1 (acc : List Char) :
    List Char → Option (List Char × List Char × List Char × List Char × List Char)
  | [] => none
  | c :: rest =>
    if c.isDigit then none
    else
      match matchG1 (c :: acc) rest with
      | some r => some r
      | none =>
        (matchAfterG1 rest).map fun t => ((c :: acc).reverse, t.1, t.2.1, t.2.2.1, t.2.2.2)

/-- `re.compile(r"(\D+)_between_(\d+)-(\S+)_(\d+)-(?P<dataset>\S+)").match(var)`:
`some` of the five capture groups on success, `none` when the pattern does
not match a prefix of `var`. -/
def matchBetween (var : String) : Option (String × String × String × String × String) :=
  (matchG1 [] var.data).map fun t =>
    (⟨t.1⟩, ⟨t.2.1⟩, ⟨t.2.2.1⟩, ⟨t.2.2.2.1⟩, ⟨t.2.2.2.2⟩)

/-- Python `int` applied to a capture group of `\d+` (a nonempty run of
decimal digit characters). -/
def parseDigits (s : String) : Nat :=
  s.data.foldl (fun n c => n * 10 + (c.toNat - 48)) 0

/-! ### `_get_pretty_name` and `_get_meta` -/

/-- `ncplot._get_meta._get_pretty_name(ds, name, number)` — the Python inner
function receives the dataset and reads only `ds.attrs`, which is passed
here directly.  Returns `(pretty_name, version, version_pretty_name)`:
  * pretty name: `ds.attrs["val_dc_pretty_name" + str(number-1)]`, falling
    back to the static name table, falling back to `name` itself;
  * version: `ds.attrs["val_dc_version" + str(number-1)]`; when that key is
    absent, version is `"unknown"` and the version pretty name is
    `"unknown version"` without any further lookup;
  * version pretty name (when the version key was present):
    `ds.attrs["val_dc_version_pretty_name" + str(number-1)]`, falling back
    to the static version table keyed by the version, falling back to the
    version itself. -/
def _get_pretty_name (tbl : StaticTables) (attrs : List (String × String))
    (name : String) (number : Int) : String × String × String :=
  let pretty_name :=
    match alookup ("val_dc_pretty_name" ++ toString (number - 1)) attrs with
    | some p => p
    | none =>
      match alookup name tbl.dataset_pretty_names with
      | some p => p
      | none => name
  match alookup ("val_dc_version" ++ toString (number - 1)) attrs with
  | some version =>
    let version_pretty_name :=
      match alookup ("val_dc_version_pretty_name" ++ toString (number - 1)) attrs with
      | some v => v
      | none =>
        match alookup version tbl.dataset_version_pretty_names with
        | some v => v
        | none => version
    (pretty_name, version, version_pretty_name)
  | none => (pretty_name, "unknown", "unknown version")

/-- The three dictionary entries `meta[i+"_pretty_name"]`, `meta[i+"_version"]`,
`meta[i+"_version_pretty_name"]` written by one iteration of the
`for i in ("ds","ref")` loop of `_get_meta`. -/
def roleEntries (tbl : StaticTables) (attrs : List (String × String))
    (role name : String) (number : Int) : List (String × AttrVal) :=
  let r := _get_pretty_name tbl attrs name number
  [(role ++ "_pretty_name", AttrVal.str r.1),
   (role ++ "_version", AttrVal.str r.2.1),
   (role ++ "_version_pretty_name", AttrVal.str r.2.2)]

/-- The full metadata dictionary built by `_get_meta` once the five base
fields are known, in Python insertion order: the five parsed fields, then
the loop entries for role `ds`, then for role `ref`. -/
def buildMeta (tbl : StaticTables) (attrs : List (String × String))
    (metric : String) (ref_no : Int) (ref : String) (ds_no : Int) (dsName : String) :
    List (String × AttrVal) :=
  [("metric", AttrVal.str metric),
   ("ref_no", AttrVal.int ref_no),
   ("ref", AttrVal.str ref),
   ("ds_no", AttrVal.int ds_no),
   ("ds", AttrVal.str dsName)]
  ++ roleEntries tbl attrs "ds" dsName ds_no
  ++ roleEntries tbl attrs "ref" ref ref_no

/-- `ncplot._get_meta(ds, var)`.  First the consistency check
`var in ds.data_vars` (raising when absent), then the regex parse; on
regex failure (`AttributeError` from `match.group` with `match = None`)
the hard-coded `n_obs` record, else the final parse error.  Python raises
exceptions; the embedding returns `Except` with the exception message (the
Python messages wrap the variable name in single quotes, written `\x27`). -/
def _get_meta (tbl : StaticTables) (ds : Dataset) (var : String) :
    Except String (List (String × AttrVal)) :=
  if var ∈ ds.data_vars then
    match matchBetween var with
    | some (g1, g2, g3, g4, g5) =>
      .ok (buildMeta tbl ds.attrs g1 (parseDigits g2 : Nat) g3 (parseDigits g4 : Nat) g5)
    | none =>
      if var = "n_obs" then
        .ok (buildMeta tbl ds.attrs "n_obs" 1 "GLDAS" 1 "GLDAS")
      else
        .error ("The given var \x27" ++ var ++ "\x27 does not match the regex pattern.")
  else
    .error ("The given var \x27" ++ var ++ "\x27 is not contained in the dataset.")

/-! ### `_get_varmeta`, `_get_metrics`, `get_metrics`, `_get_var` -/

/-- `globals.index_names`. -/
def index_names : List String := ["lat", "lon"]

/-- The default variable list of `_get_varmeta`: all data variables with the
first occurrence of each of `lat`, `lon`, `gpi` removed (Python
`list.remove` inside `try`, absence ignored apart from a warning). -/
def defaultVars (ds : Dataset) : List String :=
  ((ds.data_vars.erase "lat").erase "lon").erase "gpi"

/-- `ncplot._get_varmeta(ds, variables)`: metadata for the given variables
(`None` or an empty list — both falsy in Python — select the default list);
the first `_get_meta` failure aborts the whole dictionary comprehension. -/
def _get_varmeta (tbl : StaticTables) (ds : Dataset) (variableNames : Option (List String)) :
    Except String (List (String × List (String × AttrVal))) :=
  let vars :=
    match variableNames with
    | none => defaultVars ds
    | some vs => if vs.isEmpty then defaultVars ds else vs
  vars.mapM fun v => (_get_meta tbl ds v).map fun m => (v, m)

/-- `varmeta[var]["metric"]` — the `metric` entry of one metadata dictionary.
The key is always present in a dictionary produced by `_get_meta` (see the
population theorem below), so the default is never taken. -/
def metricName (m : List (String × AttrVal)) : String :=
  match alookup "metric" m with
  | some (AttrVal.str s) => s
  | _ => ""

/-- `ncplot._get_metrics(ds)`: the `metric` fields of all default-variable
metadata records, first occurrence kept, duplicates skipped. -/
def _get_metrics (tbl : StaticTables) (ds : Dataset) : Except String (List String) :=
  (_get_varmeta tbl ds none).map fun vm =>
    vm.foldl (fun acc p => if metricName p.2 ∈ acc then acc else acc ++ [metricName p.2]) []

/-- `ncplot.get_metrics(filepath)` applied to the already-opened dataset:
the single `try` block removes `"tau"` and then `"p_tau"`; `list.remove`
raises on a missing element, the blanket `except: pass` swallows it, so a
missing `"tau"` skips the `"p_tau"` removal as well, while a missing
`"p_tau"` after a successful `"tau"` removal leaves that removal in place. -/
def get_metrics (tbl : StaticTables) (ds : Dataset) : Except String (List String) :=
  (_get_metrics tbl ds).map fun ms =>
    if "tau" ∈ ms then
      let m1 := ms.erase "tau"
      if "p_tau" ∈ m1 then m1.erase "p_tau" else m1
    else ms

/-- Python `re.search("^" + metric + "_between", var, re.I)` as a Boolean,
for the pattern characters this call site can produce: the pattern is
matched at the start of `var`; a pattern character `.` matches any input
character except a newline, and any other pattern character matches itself
up to case (`re.IGNORECASE`, ASCII case via `Char.toLower`).  Note the
metric is interpolated into the pattern unescaped, so `.` keeps its regex
meaning. -/
def reSearchAnchoredCI : List Char → List Char → Bool
  | [], _ => true
  | _ :: _, [] => false
  | p :: ps, c :: cs =>
    (if p = '.' then c != '\n' else p.toLower == c.toLower) && reSearchAnchoredCI ps cs

/-- `ncplot._get_var(ds, metric)`: the special case `n_obs` returns
`[metric]` without touching the dataset; otherwise the data variables whose
names match `^<metric>_between` case-insensitively, in dataset order. -/
def _get_var (ds : Dataset) (metric : String) : List String :=
  if metric = "n_obs" then [metric]
  else ds.data_vars.filter fun v => reSearchAnchoredCI (metric ++ "_between").data v.data

/-- Case-insensitive starts-with, the relation named by the specification
for `_get_var` (ASCII case folding): the first argument read as a prefix of
the second, characters compared after `Char.toLower`. -/
def ciStartsWith : List Char → List Char → Bool
  | [], _ => true
  | _ :: _, [] => false
  | p :: ps, c :: cs => p.toLower == c.toLower && ciStartsWith ps cs

/-! ### Helper lemmas -/

theorem alookup_cons_ne {β : Type} {a k : String} (v : β) (l : List (String × β))
    (h : a ≠ k) : alookup k ((a, v) :: l) = alookup k l := by
  simp [alookup, h]

theorem append_ne_append_of_length_ne {a b : String} (t : String)
    (h : a.length ≠ b.length) : a ++ t ≠ b ++ t := by
  intro he
  apply h
  have hl := congrArg String.length he
  rw [String.length_append, String.length_append] at hl
  omega

/-- The pretty-name component of `_get_pretty_name`, written as the bare
fallback chain: it does not depend on the version branch taken. -/
theorem get_pretty_name_fst (tbl : StaticTables) (attrs : List (String × String))
    (name : String) (number : Int) :
    (_get_pretty_name tbl attrs name number).1 =
      (match alookup ("val_dc_pretty_name" ++ toString (number - 1)) attrs with
       | some p => p
       | none =>
         match alookup name tbl.dataset_pretty_names with
         | some p => p
         | none => name) := by
  unfold _get_pretty_name
  cases alookup ("val_dc_version" ++ toString (number - 1)) attrs <;> rfl

/-- The version and version-pretty-name components of `_get_pretty_name`,
written as the source's nested fallback chain. -/
theorem get_pretty_name_snd (tbl : StaticTables) (attrs : List (String × String))
    (name : String) (number : Int) :
    (_get_pretty_name tbl attrs name number).2 =
      (match alookup ("val_dc_version" ++ toString (number - 1)) attrs with
       | some version =>
         (version,
          match alookup ("val_dc_version_pretty_name" ++ toString (number - 1)) attrs with
          | some v => v
          | none =>
            match alookup version tbl.dataset_version_pretty_names with
            | some v => v
            | none => version)
       | none => ("unknown", "unknown version")) := by
  unfold _get_pretty_name
  cases alookup ("val_dc_version" ++ toString (number - 1)) attrs <;> rfl

/-! ### The claims -/

/-- C1: for every attribute mapping and every role short name `n` with
1-based position `k`, the pretty name resolved by `_get_pretty_name` (which
`_get_meta` invokes for both the `ref` and the `ds` role) is
`attrs["val_dc_pretty_name" + str(k-1)]` when that key is present, else the
static name-table entry for `n` when present, else `n` itself — the chain
never fails. -/
theorem pretty_name_fallback_chain (tbl : StaticTables) (attrs : List (String × String))
    (n : String) (k : Int) :
    (∀ v, alookup ("val_dc_pretty_name" ++ toString (k - 1)) attrs = some v →
      (_get_pretty_name tbl attrs n k).1 = v) ∧
    (alookup ("val_dc_pretty_name" ++ toString (k - 1)) attrs = none →
      ∀ v, alookup n tbl.dataset_pretty_names = some v →
        (_get_pretty_name tbl attrs n k).1 = v) ∧
    (alookup ("val_dc_pretty_name" ++ toString (k - 1)) attrs = none →
      alookup n tbl.dataset_pretty_names = none →
      (_get_pretty_name tbl attrs n k).1 = n) := by
  refine ⟨?_, ?_, ?_⟩
  · intro v hv
    rw [get_pretty_name_fst, hv]
  · intro h1 v hv
    rw [get_pretty_name_fst, h1, hv]
  · intro h1 h2
    rw [get_pretty_name_fst, h1, h2]

theorem pretty_name_fallback_chain_witness :
    (_get_pretty_name ⟨[("ISMN", "Static Entry")], []⟩
      [("val_dc_pretty_name0", "In Situ Network")] "ISMN" 1).1 = "In Situ Network" :=
  (pretty_name_fallback_chain ⟨[("ISMN", "Static Entry")], []⟩
    [("val_dc_pretty_name0", "In Situ Network")] "ISMN" 1).1 "In Situ Network" (by decide)

/-- C2: when `attrs["val_dc_version" + str(k-1)]` is absent, the resolved
version is `"unknown"` and the version pretty name is `"unknown version"`;
the key `"val_dc_version_pretty_name" + str(k-1)` is never consulted — the
result is unchanged by adding that key with an arbitrary value. -/
theorem version_unknown_fallback (tbl : StaticTables) (attrs : List (String × String))
    (n : String) (k : Int)
    (h : alookup ("val_dc_version" ++ toString (k - 1)) attrs = none) :
    (_get_pretty_name tbl attrs n k).2.1 = "unknown" ∧
    (_get_pretty_name tbl attrs n k).2.2 = "unknown version" ∧
    ∀ w, _get_pretty_name tbl
        (("val_dc_version_pretty_name" ++ toString (k - 1), w) :: attrs) n k =
      _get_pretty_name tbl attrs n k := by
  have h1 : (_get_pretty_name tbl attrs n k).2 = ("unknown", "unknown version") := by
    rw [get_pretty_name_snd, h]
  refine ⟨by rw [h1], by rw [h1], ?_⟩
  intro w
  have hpn : ("val_dc_version_pretty_name" ++ toString (k - 1) : String) ≠
      "val_dc_pretty_name" ++ toString (k - 1) :=
    append_ne_append_of_length_ne _ (by decide)
  have hver : ("val_dc_version_pretty_name" ++ toString (k - 1) : String) ≠
      "val_dc_version" ++ toString (k - 1) :=
    append_ne_append_of_length_ne _ (by decide)
  unfold _get_pretty_name
  rw [alookup_cons_ne _ _ hpn, alookup_cons_ne _ _ hver, h]

theorem version_unknown_fallback_witness :
    (_get_pretty_name ⟨[], []⟩ [("val_dc_version_pretty_name0", "ignored")] "X" 1).2.1 =
      "unknown" ∧
    (_get_pretty_name ⟨[], []⟩ [("val_dc_version_pretty_name0", "ignored")] "X" 1).2.2 =
      "unknown version" :=
  ⟨(version_unknown_fallback ⟨[], []⟩ [("val_dc_version_pretty_name0", "ignored")] "X" 1
      (by decide)).1,
   (version_unknown_fallback ⟨[], []⟩ [("val_dc_version_pretty_name0", "ignored")] "X" 1
      (by decide)).2.1⟩

/-- C3: when `attrs["val_dc_version" + str(k-1)]` is present with value `v`,
the resolved version is `v`, and the version pretty name is
`attrs["val_dc_version_pretty_name" + str(k-1)]` when present, else the
static version-table entry for `v` when present, else `v` itself — this
sub-resolution never fails. -/
theorem version_pretty_name_chain (tbl : StaticTables) (attrs : List (String × String))
    (n : String) (k : Int) (v : String)
    (h : alookup ("val_dc_version" ++ toString (k - 1)) attrs = some v) :
    (_get_pretty_name tbl attrs n k).2.1 = v ∧
    (∀ w, alookup ("val_dc_version_pretty_name" ++ toString (k - 1)) attrs = some w →
      (_get_pretty_name tbl attrs n k).2.2 = w) ∧
    (alookup ("val_dc_version_pretty_name" ++ toString (k - 1)) attrs = none →
      ∀ w, alookup v tbl.dataset_version_pretty_names = some w →
        (_get_pretty_name tbl attrs n k).2.2 = w) ∧
    (alookup ("val_dc_version_pretty_name" ++ toString (k - 1)) attrs = none →
      alookup v tbl.dataset_version_pretty_names = none →
      (_get_pretty_name tbl attrs n k).2.2 = v) := by
  refine ⟨?_, ?_, ?_, ?_⟩
  · rw [get_pretty_name_snd, h]
  · intro w hw
    rw [get_pretty_name_snd, h, hw]
  · intro h1 w hw
    rw [get_pretty_name_snd, h, h1]
    show (match alookup v tbl.dataset_version_pretty_names with
          | some w2 => w2
          | none => v) = w
    rw [hw]
  · intro h1 h2
    rw [get_pretty_name_snd, h, h1]
    show (match alookup v tbl.dataset_version_pretty_names with
          | some w2 => w2
          | none => v) = v
    rw [h2]

theorem version_pretty_name_chain_witness :
    (_get_pretty_name ⟨[], [("v20", "Version 2.0")]⟩ [("val_dc_version0", "v20")] "X" 1).2.1 =
      "v20" ∧
    (_get_pretty_name ⟨[], [("v20", "Version 2.0")]⟩ [("val_dc_version0", "v20")] "X" 1).2.2 =
      "Version 2.0" :=
  ⟨(version_pretty_name_chain ⟨[], [("v20", "Version 2.0")]⟩ [("val_dc_version0", "v20")]
      "X" 1 "v20" (by decide)).1,
   (version_pretty_name_chain ⟨[], [("v20", "Version 2.0")]⟩ [("val_dc_version0", "v20")]
      "X" 1 "v20" (by decide)).2.2.1 (by decide) "Version 2.0" (by decide)⟩

/-- C4: for a variable name in the dataset that matches the `between`
pattern, the resolved record carries the five capture groups in order:
`metric`, `ref_no` (as an integer), `ref`, `ds_no` (as an integer), `ds`. -/
theorem between_match_groups (tbl : StaticTables) (d : Dataset)
    (var g1 g2 g3 g4 g5 : String)
    (hm : matchBetween var = some (g1, g2, g3, g4, g5))
    (hv : var ∈ d.data_vars) :
    (_get_meta tbl d var).map (alookup "metric") = .ok (some (AttrVal.str g1)) ∧
    (_get_meta tbl d var).map (alookup "ref_no") = .ok (some (AttrVal.int (parseDigits g2))) ∧
    (_get_meta tbl d var).map (alookup "ref") = .ok (some (AttrVal.str g3)) ∧
    (_get_meta tbl d var).map (alookup "ds_no") = .ok (some (AttrVal.int (parseDigits g4))) ∧
    (_get_meta tbl d var).map (alookup "ds") = .ok (some (AttrVal.str g5)) := by
  unfold _get_meta
  rw [if_pos hv, hm]
  exact ⟨rfl, rfl, rfl, rfl, rfl⟩

theorem between_match_groups_witness :
    (_get_meta ⟨[], []⟩ ⟨["rmsd_between_3-ISMN_1-C3S"], []⟩
        "rmsd_between_3-ISMN_1-C3S").map (alookup "ref_no") =
      .ok (some (AttrVal.int 3)) ∧
    (_get_meta ⟨[], []⟩ ⟨["rmsd_between_3-ISMN_1-C3S"], []⟩
        "rmsd_between_3-ISMN_1-C3S").map (alookup "ds") =
      .ok (some (AttrVal.str "C3S")) :=
  ⟨(between_match_groups ⟨[], []⟩ ⟨["rmsd_between_3-ISMN_1-C3S"], []⟩
      "rmsd_between_3-ISMN_1-C3S" "rmsd" "3" "ISMN" "1" "C3S" rfl (by decide)).2.1,
   (between_match_groups ⟨[], []⟩ ⟨["rmsd_between_3-ISMN_1-C3S"], []⟩
      "rmsd_between_3-ISMN_1-C3S" "rmsd" "3" "ISMN" "1" "C3S" rfl (by decide)).2.2.2.2⟩

/-- C5: resolving the sentinel `n_obs` (present in the dataset) always gives
the hard-coded record `metric="n_obs"`, `ref_no=1`, `ref="GLDAS"`,
`ds_no=1`, `ds="GLDAS"`, whatever the attribute mapping contains. -/
theorem n_obs_fixed_record (tbl : StaticTables) (d : Dataset)
    (h : "n_obs" ∈ d.data_vars) :
    (_get_meta tbl d "n_obs").map (alookup "metric") = .ok (some (AttrVal.str "n_obs")) ∧
    (_get_meta tbl d "n_obs").map (alookup "ref_no") = .ok (some (AttrVal.int 1)) ∧
    (_get_meta tbl d "n_obs").map (alookup "ref") = .ok (some (AttrVal.str "GLDAS")) ∧
    (_get_meta tbl d "n_obs").map (alookup "ds_no") = .ok (some (AttrVal.int 1)) ∧
    (_get_meta tbl d "n_obs").map (alookup "ds") = .ok (some (AttrVal.str "GLDAS")) := by
  unfold _get_meta
  rw [if_pos h]
  exact ⟨rfl, rfl, rfl, rfl, rfl⟩

theorem n_obs_fixed_record_witness :
    (_get_meta ⟨[("k", "v")], []⟩ ⟨["n_obs"], [("val_dc_pretty_name0", "anything")]⟩
        "n_obs").map (alookup "ref") = .ok (some (AttrVal.str "GLDAS")) :=
  (n_obs_fixed_record ⟨[("k", "v")], []⟩ ⟨["n_obs"], [("val_dc_pretty_name0", "anything")]⟩
    (by decide)).2.2.1

/-- C6: a variable name that is in the dataset but is neither `n_obs` nor a
match of the `between` pattern makes `_get_meta` fail, and the error message
carries the offending variable name. -/
theorem unparsable_var_error (tbl : StaticTables) (d : Dataset) (var : String)
    (hv : var ∈ d.data_vars) (hn : var ≠ "n_obs") (hm : matchBetween var = none) :
    _get_meta tbl d var =
      .error ("The given var \x27" ++ var ++ "\x27 does not match the regex pattern.") ∧
    ∃ pre post,
      ("The given var \x27" ++ var ++ "\x27 does not match the regex pattern." : String) =
        pre ++ var ++ post := by
  refine ⟨?_, "The given var \x27", "\x27 does not match the regex pattern.", rfl⟩
  unfold _get_meta
  rw [if_pos hv, hm, if_neg hn]

theorem unparsable_var_error_witness :
    _get_meta ⟨[], []⟩ ⟨["not_a_valid_name"], []⟩ "not_a_valid_name" =
      .error "The given var \x27not_a_valid_name\x27 does not match the regex pattern." :=
  (unparsable_var_error ⟨[], []⟩ ⟨["not_a_valid_name"], []⟩ "not_a_valid_name"
    (by decide) (by decide) rfl).1

/-- Every successful `_get_meta` result is a fully built `buildMeta`
dictionary. -/
theorem get_meta_ok_shape (tbl : StaticTables) (d : Dataset) (var : String)
    (m : List (String × AttrVal)) (h : _get_meta tbl d var = .ok m) :
    ∃ metric refNo ref dsNo dsName,
      m = buildMeta tbl d.attrs metric refNo ref dsNo dsName := by
  unfold _get_meta at h
  split at h
  · split at h
    · injection h with h
      exact ⟨_, _, _, _, _, h.symm⟩
    · split at h
      · injection h with h
        exact ⟨_, _, _, _, _, h.symm⟩
      · simp at h
  · simp at h

/-- C7: whenever `_get_meta` returns a record, all eleven fields — the five
parsed fields and the six per-role label fields — are present in the
dictionary; the record is never partially filled. -/
theorem meta_record_fully_populated (tbl : StaticTables) (d : Dataset) (var : String)
    (m : List (String × AttrVal)) (h : _get_meta tbl d var = .ok m) :
    (alookup "metric" m).isSome = true ∧
    (alookup "ref_no" m).isSome = true ∧
    (alookup "ref" m).isSome = true ∧
    (alookup "ds_no" m).isSome = true ∧
    (alookup "ds" m).isSome = true ∧
    (alookup "ref_pretty_name" m).isSome = true ∧
    (alookup "ds_pretty_name" m).isSome = true ∧
    (alookup "ref_version" m).isSome = true ∧
    (alookup "ds_version" m).isSome = true ∧
    (alookup "ref_version_pretty_name" m).isSome = true ∧
    (alookup "ds_version_pretty_name" m).isSome = true := by
  obtain ⟨metric, refNo, ref, dsNo, dsName, rfl⟩ := get_meta_ok_shape tbl d var m h
  exact ⟨rfl, rfl, rfl, rfl, rfl, rfl, rfl, rfl, rfl, rfl, rfl⟩

theorem meta_record_fully_populated_witness :
    (alookup "ref_version_pretty_name"
      [("metric", AttrVal.str "n_obs"), ("ref_no", AttrVal.int 1),
       ("ref", AttrVal.str "GLDAS"), ("ds_no", AttrVal.int 1),
       ("ds", AttrVal.str "GLDAS"), ("ds_pretty_name", AttrVal.str "GLDAS"),
       ("ds_version", AttrVal.str "unknown"),
       ("ds_version_pretty_name", AttrVal.str "unknown version"),
       ("ref_pretty_name", AttrVal.str "GLDAS"),
       ("ref_version", AttrVal.str "unknown"),
       ("ref_version_pretty_name", AttrVal.str "unknown version")]).isSome = true :=
  (meta_record_fully_populated ⟨[], []⟩ ⟨["n_obs"], []⟩ "n_obs" _ rfl).2.2.2.2.2.2.2.2.2.1

/-- C8, counterexample: `_get_meta` does NOT leave the membership check to
its caller — for the same decodable name `n_obs` it errors on a dataset
without that variable and succeeds on one with it, so its behaviour depends
on the dataset variable list. -/
theorem dataset_check_counterexample :
    _get_meta ⟨[], []⟩ ⟨[], []⟩ "n_obs" =
      .error "The given var \x27n_obs\x27 is not contained in the dataset." ∧
    _get_meta ⟨[], []⟩ ⟨["n_obs"], []⟩ "n_obs" ≠
      _get_meta ⟨[], []⟩ ⟨[], []⟩ "n_obs" := by
  refine ⟨rfl, ?_⟩
  intro h
  exact Except.noConfusion h

/-- C8, amended: `_get_meta` itself checks that the variable is in the
dataset variable list, failing with the containment error when it is not;
for names that are in the list, the result depends on the dataset only
through its attribute mapping. -/
theorem dataset_check_in_resolver (tbl : StaticTables) (d d2 : Dataset) (var : String) :
    (var ∉ d.data_vars →
      _get_meta tbl d var =
        .error ("The given var \x27" ++ var ++ "\x27 is not contained in the dataset.")) ∧
    (d.attrs = d2.attrs → var ∈ d.data_vars → var ∈ d2.data_vars →
      _get_meta tbl d var = _get_meta tbl d2 var) := by
  constructor
  · intro h
    unfold _get_meta
    rw [if_neg h]
  · intro ha h1 h2
    unfold _get_meta
    rw [if_pos h1, if_pos h2, ha]

theorem dataset_check_in_resolver_witness :
    _get_meta ⟨[], []⟩ ⟨["other"], []⟩ "n_obs" =
      .error "The given var \x27n_obs\x27 is not contained in the dataset." ∧
    _get_meta ⟨[], []⟩ ⟨["n_obs"], [("a", "b")]⟩ "n_obs" =
      _get_meta ⟨[], []⟩ ⟨["n_obs", "other"], [("a", "b")]⟩ "n_obs" :=
  ⟨(dataset_check_in_resolver ⟨[], []⟩ ⟨["other"], []⟩ ⟨["other"], []⟩ "n_obs").1 (by decide),
   (dataset_check_in_resolver ⟨[], []⟩ ⟨["n_obs"], [("a", "b")]⟩
      ⟨["n_obs", "other"], [("a", "b")]⟩ "n_obs").2 rfl (by decide) (by decide)⟩

/-- The append-if-absent fold of `_get_metrics` keeps its accumulator free
of duplicates. -/
theorem dedup_foldl_nodup {β : Type} (g : β → String) :
    ∀ (l : List β) (acc : List String), acc.Nodup →
      (l.foldl (fun a x => if g x ∈ a then a else a ++ [g x]) acc).Nodup
  | [], _, h => h
  | x :: xs, acc, h => by
    rw [List.foldl_cons]
    apply dedup_foldl_nodup g xs
    by_cases hx : g x ∈ acc
    · rw [if_pos hx]; exact h
    · rw [if_neg hx]
      simp [List.nodup_append, h, hx]

/-- `_get_metrics` returns a duplicate-free metric list. -/
theorem get_metrics_list_nodup (tbl : StaticTables) (d : Dataset) (ms0 : List String)
    (h : _get_metrics tbl d = .ok ms0) : ms0.Nodup := by
  unfold _get_metrics at h
  cases hvm : _get_varmeta tbl d none with
  | error e => rw [hvm] at h; simp [Except.map] at h
  | ok vm =>
    rw [hvm] at h
    simp only [Except.map] at h
    injection h with h
    rw [← h]
    exact dedup_foldl_nodup (fun p => metricName p.2) vm [] List.nodup_nil

/-- C9: whenever `get_metrics` returns, its list never contains `"tau"`;
and because the two removals share one blanket `try/except`, `"p_tau"`
survives whenever `"tau"` was absent, and `"p_tau"` can only have been
removed if `"tau"` was present. -/
theorem get_metrics_tau_removal (tbl : StaticTables) (d : Dataset)
    (ms0 ms : List String)
    (h0 : _get_metrics tbl d = .ok ms0) (h : get_metrics tbl d = .ok ms) :
    "tau" ∉ ms ∧
    ("p_tau" ∈ ms0 → "tau" ∉ ms0 → "p_tau" ∈ ms) ∧
    ("p_tau" ∈ ms0 → "p_tau" ∉ ms → "tau" ∈ ms0) := by
  have hnd : ms0.Nodup := get_metrics_list_nodup tbl d ms0 h0
  unfold get_metrics at h
  rw [h0] at h
  simp only [Except.map] at h
  injection h with h
  by_cases ht : "tau" ∈ ms0
  · rw [if_pos ht] at h
    have htau1 : "tau" ∉ ms0.erase "tau" := hnd.not_mem_erase
    by_cases hp : "p_tau" ∈ ms0.erase "tau"
    · rw [if_pos hp] at h
      refine ⟨?_, ?_, ?_⟩
      · rw [← h]
        intro hc
        exact htau1 (List.mem_of_mem_erase hc)
      · intro _ hc
        exact absurd ht hc
      · intro _ _
        exact ht
    · rw [if_neg hp] at h
      refine ⟨?_, ?_, ?_⟩
      · rw [← h]; exact htau1
      · intro _ hc
        exact absurd ht hc
      · intro _ _
        exact ht
  · rw [if_neg ht] at h
    subst h
    exact ⟨ht, fun hp _ => hp, fun hp hnp => absurd hp hnp⟩

theorem get_metrics_tau_removal_witness :
    "tau" ∉ (["p_tau"] : List String) ∧ "p_tau" ∈ (["p_tau"] : List String) :=
  ⟨(get_metrics_tau_removal ⟨[], []⟩ ⟨["p_tau_between_1-A_2-B"], []⟩
      ["p_tau"] ["p_tau"] rfl rfl).1,
   (get_metrics_tau_removal ⟨[], []⟩ ⟨["p_tau_between_1-A_2-B"], []⟩
      ["p_tau"] ["p_tau"] rfl rfl).2.1 (by decide) (by decide)⟩

/-- On pattern characters with no special regex meaning (in particular no
`.`), the interpolated `re.search` test is exactly the case-insensitive
starts-with relation. -/
theorem reSearch_eq_ciStartsWith :
    ∀ (p s : List Char), (∀ c ∈ p, c ≠ '.') →
      reSearchAnchoredCI p s = ciStartsWith p s
  | [], s, _ => by cases s <;> rfl
  | _ :: _, [], _ => rfl
  | p :: ps, c :: cs, h => by
    have hp : p ≠ '.' := h p (List.mem_cons_self p ps)
    simp only [reSearchAnchoredCI, ciStartsWith, if_neg hp]
    rw [reSearch_eq_ciStartsWith ps cs fun x hx => h x (List.mem_cons_of_mem p hx)]

/-- C10, counterexample: the metric string is interpolated into the regex
unescaped, so for the metric `p.R` the dot keeps its regex meaning:
`_get_var` keeps the variable `pxR_between_1-a_2-b`, which does not begin
with `p.R_between` under case-insensitive comparison. -/
theorem get_var_regex_injection_counterexample :
    _get_var ⟨["pxR_between_1-a_2-b"], []⟩ "p.R" = ["pxR_between_1-a_2-b"] ∧
    ciStartsWith ("p.R" ++ "_between").data "pxR_between_1-a_2-b".data = false := by
  exact ⟨rfl, rfl⟩

/-- C10, amended: for every metric string made of characters without special
regex meaning (letters, digits, underscore — all real metric names qualify)
other than `n_obs`, `_get_var` returns exactly the data variables whose
names begin with `<metric>_between` case-insensitively, in dataset order;
for `n_obs` it returns `["n_obs"]` for every dataset. -/
theorem get_var_filter (d : Dataset) (m : String)
    (hm : ∀ c ∈ m.data, c.isAlphanum = true ∨ c = '_') :
    (m ≠ "n_obs" →
      _get_var d m =
        d.data_vars.filter fun v => ciStartsWith (m ++ "_between").data v.data) ∧
    ∀ d2 : Dataset, _get_var d2 "n_obs" = ["n_obs"] := by
  constructor
  · intro hne
    unfold _get_var
    rw [if_neg hne]
    apply List.filter_congr
    intro v _
    apply reSearch_eq_ciStartsWith
    intro c hc
    rw [String.data_append] at hc
    rcases List.mem_append.1 hc with hcm | hcb
    · rcases hm c hcm with ha | ha
      · intro he
        subst he
        exact absurd ha (by decide)
      · subst ha
        decide
    · exact (by decide : ∀ c2 ∈ "_between".data, c2 ≠ '.') c hcb
  · intro d2
    rfl

theorem get_var_filter_witness :
    _get_var ⟨["R_between_1-A_2-B", "r_between_1-X_2-Y", "rho_between_1-A_2-B"], []⟩ "R" =
      ["R_between_1-A_2-B", "r_between_1-X_2-Y"] := by
  rw [(get_var_filter ⟨["R_between_1-A_2-B", "r_between_1-X_2-Y", "rho_between_1-A_2-B"], []⟩
    "R" (by decide)).1 (by decide)]
  rfl

end QA4SM
